import Mathlib

/-!
Verification of the media-download engine against its specification.

Each definition is a shallow embedding of a function of the repository,
translated from the Python source file named in its doc comment.
Machine time values (Python floats from time.time) are modelled as
rationals; user ids as integers.  Definitions come first, followed by
all theorems.
-/

namespace RL

/-- State of `RateLimiter` from src/utils/rate_limiter.py.  The
`requests` dict (a defaultdict mapping user id to a list of request
timestamps) is modelled as a total function defaulting to `[]`. -/
structure RateLimiter where
  max_requests : Nat
  time_window : Rat
  requests : Int → List Rat

/-- The pruning step at the top of `can_proceed`: keep only the request
timestamps still inside the sliding window at time `now`
(the list comprehension `[t for t in user_requests if current_time - t < self.time_window]`). -/
def prune (rl : RateLimiter) (user : Int) (now : Rat) : List Rat :=
  (rl.requests user).filter (fun t => now - t < rl.time_window)

/-- Model of `RateLimiter.can_proceed` (src/utils/rate_limiter.py lines 11-26).
Returns ((allowed, wait_time), new state).  The pruned list is stored back
in both branches; a timestamp is appended only in the allowed branch. -/
def can_proceed (rl : RateLimiter) (user : Int) (now : Rat) :
    (Bool × Rat) × RateLimiter :=
  let user_requests := prune rl user now
  if rl.max_requests ≤ user_requests.length then
    ((false, user_requests.headD 0 + rl.time_window - now),
     { rl with requests := fun u => if u = user then user_requests else rl.requests u })
  else
    ((true, 0),
     { rl with requests := fun u => if u = user then user_requests ++ [now] else rl.requests u })

/-- Concrete rate limiter used by witnesses: maxRequests 1, window 60,
user 5 has one recorded request at time 0. -/
def rlW : RateLimiter :=
  ⟨1, 60, fun u => if u = 5 then [0] else []⟩

end RL

namespace QMgr

/-- State of `QueueManager` from src/utils/queue_manager.py: the pending
deque and the set of active asyncio tasks (jobs currently downloading),
each job identified by a natural number. -/
structure QueueManager where
  queue : List Nat
  active_tasks : List Nat
deriving DecidableEq

/-- Model of `QueueManager.process_queue` (src/utils/queue_manager.py
lines 14-19): while the queue is nonempty and fewer than `max_concurrent`
tasks are active, pop the left end of the queue and start it as a task. -/
def process_queue (max_concurrent : Nat) : List Nat → List Nat → QueueManager
  | [], active => ⟨[], active⟩
  | j :: rest, active =>
      if active.length < max_concurrent then
        process_queue max_concurrent rest (j :: active)
      else ⟨j :: rest, active⟩

/-- Model of `QueueManager.add_to_queue` (src/utils/queue_manager.py
lines 10-12).  The body is `await self.queue.append(coro)` followed by
`await self.process_queue()`: `deque.append` returns None and awaiting
None raises TypeError, so the append takes effect and the TypeError
propagates to the caller before `self.process_queue()` is ever reached.
Returns the post-state together with the raised exception (modelling
the CPython message about NoneType not being usable in an await
expression). -/
def add_to_queue (s : QueueManager) (j : Nat) : QueueManager × Except String Unit :=
  (⟨s.queue ++ [j], s.active_tasks⟩,
   Except.error ("TypeError: object NoneType can not be used in await expression"))

/-- Model of `QueueManager.task_done`: remove the finished task from the
active set, then run `process_queue` again (scheduled via
`asyncio.create_task` in the source).  This callback is attached to a
task only inside `process_queue` (`task.add_done_callback`), so it can
fire only after `process_queue` has created a task. -/
def task_done (max_concurrent : Nat) (s : QueueManager) (j : Nat) : QueueManager :=
  process_queue max_concurrent s.queue (s.active_tasks.erase j)

/-- States of the actual program: from a fresh queue the only external
events are `add_to_queue` calls, each of which appends and then raises
TypeError (the caller may catch it, leaving the object alive for
further calls).  `process_queue` is reached only from `add_to_queue`
(whose raise precedes the call) or from a `task_done` callback that
only `process_queue` itself installs, so no task is ever created or
completed. -/
inductive Reachable : QueueManager → Prop
  | init : Reachable ⟨[], []⟩
  | enqueue (s : QueueManager) (j : Nat) : Reachable s → Reachable (add_to_queue s j).1

end QMgr

namespace CMgr

/-- `QueueItem` dataclass from src/utils/cache_manager.py.  The float
`progress` field (always 0.0 at enqueue time and irrelevant to the
dedup claim) is omitted. -/
structure QueueItem where
  user_id : Int
  file_url : String
  quality : String
  format : String
  added_time : Nat
  status : String
deriving DecidableEq

/-- State of the `QueueManager` in src/utils/cache_manager.py: the
pending list, the `active_downloads` dict keyed by user id, and the
items handed to `asyncio.create_task(self.process_download(...))`
(each such task is a worker coroutine owning its item). -/
structure QueueManager where
  queue : List QueueItem
  active_downloads : List (Int × QueueItem)
  created_tasks : List QueueItem
deriving DecidableEq

/-- The `max_concurrent` field, fixed to 3 in `__init__`. -/
def max_concurrent : Nat := 3

/-- Python dict assignment `d[k] = v`: overwrite the entry for `k` if
present, else append. -/
def dinsert : List (Int × QueueItem) → Int → QueueItem → List (Int × QueueItem)
  | [], k, v => [(k, v)]
  | (k', v') :: t, k, v =>
      if k' = k then (k, v) :: t else (k', v') :: dinsert t k v

/-- Model of `QueueManager.process_queue` (src/utils/cache_manager.py):
while fewer than `max_concurrent` downloads are active and the queue is
nonempty, pop the head, store it in `active_downloads` under its user id,
and spawn a `process_download` task for it. -/
def process_queue : List QueueItem → List (Int × QueueItem) → List QueueItem → QueueManager
  | [], active, tasks => ⟨[], active, tasks⟩
  | it :: rest, active, tasks =>
      if active.length < max_concurrent then
        process_queue rest (dinsert active it.user_id it) (tasks ++ [it])
      else ⟨it :: rest, active, tasks⟩

/-- Model of `QueueManager.add_to_queue` (src/utils/cache_manager.py
lines 22-33): unconditionally construct a fresh `QueueItem` (with
status 'pending' and the current time), append it, process the queue,
and return the fresh item. -/
def add_to_queue (s : QueueManager) (user_id : Int)
    (file_url quality fmt : String) (now : Nat) : QueueItem × QueueManager :=
  let item : QueueItem := ⟨user_id, file_url, quality, fmt, now, "pending"⟩
  (item, process_queue (s.queue ++ [item]) s.active_downloads s.created_tasks)

/-- Number of jobs for a given (user, url, quality, format) tuple that
are held either in the pending queue or by a spawned worker task. -/
def tuple_jobs (s : QueueManager) (u : Int) (url q f : String) : Nat :=
  (s.queue ++ s.created_tasks).countP
    (fun it => it.user_id = u ∧ it.file_url = url ∧ it.quality = q ∧ it.format = f)

/-- Empty queue manager as produced by `__init__`. -/
def cInit : QueueManager := ⟨[], [], []⟩

/-- First enqueue of the duplicate pair used by the C2 counterexample. -/
def cr1 : QueueItem × QueueManager :=
  add_to_queue cInit 1 ("http://x") ("LOSSLESS") ("flac") 0

/-- Second enqueue of the same (user, url, quality, format) tuple while
the first job is still non-terminal. -/
def cr2 : QueueItem × QueueManager :=
  add_to_queue cr1.2 1 ("http://x") ("LOSSLESS") ("flac") 1

end CMgr

namespace DM

/-- `DownloadRequest` as used by src/utils/download_manager.py (imported
from utils.models, which the repository does not ship; the fields below
are the ones `_download_file` reads: `url`, `output_path`, and the
mutable `cancelled` flag, the latter modelled as the external function
`cancel` below). -/
structure DownloadRequest where
  url : String
  output_path : String
deriving DecidableEq

/-- One HTTP response as consumed by `_download_file`: status code, the
optional content-length header, and the sizes of the chunks delivered by
`response.content.iter_chunked(64 * 1024)`. -/
structure HttpResponse where
  status : Nat
  content_length : Option Nat
  chunks : List Nat
deriving DecidableEq

instance {α β : Type} [DecidableEq α] [DecidableEq β] : DecidableEq (Except α β) :=
  fun a b =>
    match a, b with
    | Except.ok x, Except.ok y => decidable_of_iff (x = y) (by simp)
    | Except.error x, Except.error y => decidable_of_iff (x = y) (by simp)
    | Except.ok _, Except.error _ => isFalse (by simp)
    | Except.error _, Except.ok _ => isFalse (by simp)

/-- Observable outcome of one `_download_file` call: the returned value
or raised exception message, whether a file remains at `output_path`,
how many bytes it holds, the successive byte counts observable at
`output_path` after the open and after each chunk write, and the
`(downloaded, total_size)` pairs passed to the progress callback. -/
structure DLResult where
  result : Except String String
  file_exists : Bool
  bytes_written : Nat
  snapshots : List Nat
  reports : List (Nat × Nat)
deriving DecidableEq

/-- The chunk loop of `_download_file` (src/utils/download_manager.py
lines 36-44): before writing chunk number `idx` the `cancelled` flag is
read (`cancel idx`); if set, the loop raises 'Download cancelled'
leaving the bytes already written in place; otherwise the chunk is
written, the byte count advances and the progress callback fires.
Returns (result, final byte count, snapshots, progress reports). -/
def downloadLoop (cancel : Nat → Bool) (total : Nat) (out : String) :
    List Nat → Nat → Nat → Except String String × Nat × List Nat × List (Nat × Nat)
  | [], _, downloaded => (Except.ok out, downloaded, [], [])
  | c :: rest, idx, downloaded =>
      if cancel idx then (Except.error ("Download cancelled"), downloaded, [], [])
      else
        let d := downloaded + c
        let r := downloadLoop cancel total out rest (idx + 1) d
        (r.1, r.2.1, d :: r.2.2.1, (d, total) :: r.2.2.2)

/-- Model of `DownloadManager._download_file` (src/utils/download_manager.py
lines 20-47): a non-200 status raises immediately (before the output file
is created); otherwise the file is opened at `output_path` (truncated to
0 bytes) and the chunk loop writes into it in place. -/
def download_file (req : DownloadRequest) (resp : HttpResponse) (cancel : Nat → Bool) :
    DLResult :=
  if resp.status ≠ 200 then
    ⟨Except.error (("Download failed with status ") ++ toString resp.status),
      false, 0, [], []⟩
  else
    let total := resp.content_length.getD 0
    let r := downloadLoop cancel total req.output_path resp.chunks 0 0
    ⟨r.1, true, r.2.1, 0 :: r.2.2.1, r.2.2.2⟩

/-- Model of `DownloadManager.download` against a server oracle giving
the response to the n-th HTTP request for this job: the source performs
exactly one `session.get`, so only `server 0` is ever consulted. -/
def download_via (server : Nat → HttpResponse) (req : DownloadRequest)
    (cancel : Nat → Bool) : DLResult :=
  download_file req (server 0) cancel

/-- Cumulative byte counts after each chunk write, starting from `acc`. -/
def cumFrom : Nat → List Nat → List Nat
  | _, [] => []
  | acc, c :: t => (acc + c) :: cumFrom (acc + c) t

/-- The never-cancelled flag. -/
def noCancel : Nat → Bool := fun _ => false

/-- The flag becoming true from the second chunk boundary on. -/
def cancelAt1 : Nat → Bool := fun i => decide (1 ≤ i)

/-- Request used by concrete runs. -/
def reqW : DownloadRequest := ⟨"http://cdn/file", "/downloads/out.flac"⟩

/-- Healthy 200 response: content-length 2000, two 1000-byte chunks. -/
def respW : HttpResponse := ⟨200, some 2000, [1000, 1000]⟩

/-- Server that answers 503 on the first request and would succeed on
any retry. -/
def srv503 : Nat → HttpResponse :=
  fun n => if n = 0 then ⟨503, some 2000, [1000, 1000]⟩ else respW

end DM

namespace MD

/-- The `quality_map` dict of `TidalDownloader.get_download_url`
(src/music_downloader.py line 75). -/
def quality_map : List (String × String) :=
  [("LOW", "LOW"), ("HIGH", "HIGH"), ("LOSSLESS", "LOSSLESS"), ("HI_RES", "HI_RES")]

/-- `QualityNotAvailableError` from src/utils/exceptions.py lines 29-34:
carries a message (default shown) and an optional list of available
qualities (None unless supplied). -/
structure QualityNotAvailableError where
  message : String
  available_qualities : Option (List String)
deriving DecidableEq

/-- Model of `TidalDownloader.get_download_url` (src/music_downloader.py
lines 74-82).  `server track_id q` is the Tidal streamUrl endpoint's
(status, body url) answer for native quality code `q`.  Returns the
outcome together with the list of quality codes actually requested. -/
def get_download_url (server : String → String → Nat × String)
    (track_id quality : String) :
    Except QualityNotAvailableError String × List String :=
  let q := (quality_map.lookup quality).getD ("HIGH")
  let r := server track_id q
  (if r.1 = 200 then Except.ok r.2
   else Except.error ⟨("Failed to get download URL for the specified quality"), none⟩,
   [q])

/-- Server for the C4 counterexample: HI_RES is unavailable for this
track (404) while the next-lower tier LOSSLESS is available. -/
def srvQ : String → String → Nat × String := fun _tid q =>
  if q = "HI_RES" then (404, "") else (200, ("http://cdn/lossless"))

/-- File-system events a download can perform, for the finalization
claim. -/
inductive FsEvent
  | write (path : String)
  | tag (path : String)
  | rename (src dst : String)
deriving DecidableEq

/-- Event trace of `TidalDownloader.download_track`
(src/music_downloader.py lines 41-52): the body is written at the final
`filepath` by `download_file`, then `Tagger.tag_file(filepath, ...)`
tags it in place.  No temporary path and no rename appear. -/
def download_track_events (filepath : String) : List FsEvent :=
  [FsEvent.write filepath, FsEvent.tag filepath]

end MD

namespace UP

/-- Python str.strip(): drop whitespace from both ends. -/
def trimL (s : List Char) : List Char :=
  ((s.dropWhile Char.isWhitespace).reverse.dropWhile Char.isWhitespace).reverse

/-- Whether the first list is an initial segment of the second. -/
def startsWithL : List Char → List Char → Bool
  | [], _ => true
  | _ :: _, [] => false
  | p :: ps, c :: cs => p = c && startsWithL ps cs

/-- Python `needle in hay` on strings: substring containment. -/
def containsSub : List Char → List Char → Bool
  | n, [] => n.isEmpty
  | n, c :: cs => startsWithL n (c :: cs) || containsSub n cs

/-- Whether the first list is a final segment of the second (the
suffix-matching the spec describes; used only to compare against the
code's actual substring matching). -/
def endsWithL (pat s : List Char) : Bool :=
  startsWithL pat.reverse s.reverse

/-- Split a cleaned URL into (netloc, path) the way `urllib.parse.urlparse`
does for the http/https URLs produced by `_clean_url`: the netloc runs
from after the scheme marker to the first '/', '?' or '#'; the path runs
from there to the first '?' or '#'.  A string without an http scheme
(possible only for an expanded short link) has empty netloc, as in
urlparse for scheme-less strings. -/
def splitUrl (s : List Char) : List Char × List Char :=
  if startsWithL (("https://").toList) s then
    let rest := s.drop 8
    let netloc := rest.takeWhile (fun c => !(c = '/' || c = '?' || c = '#'))
    ((netloc), (rest.drop netloc.length).takeWhile (fun c => !(c = '?' || c = '#')))
  else if startsWithL (("http://").toList) s then
    let rest := s.drop 7
    let netloc := rest.takeWhile (fun c => !(c = '/' || c = '?' || c = '#'))
    ((netloc), (rest.drop netloc.length).takeWhile (fun c => !(c = '?' || c = '#')))
  else ([], s.takeWhile (fun c => !(c = '?' || c = '#')))

/-- Model of `URLParser._clean_url` (src/utils/url_parser.py lines
101-119): empty input fails; otherwise strip whitespace, prepend
https:// when no http scheme is present, and require a nonempty netloc. -/
def clean_url (url : String) : Option (List Char) :=
  if url.toList.isEmpty then none
  else
    let s := trimL url.toList
    let s2 := if startsWithL (("http://").toList) s || startsWithL (("https://").toList) s
              then s else (("https://").toList) ++ s
    if (splitUrl s2).1.isEmpty then none else some s2

/-- A regex literal with '.' wildcards, as a list of (Option Char):
`none` matches any character. -/
def wildPat (s : String) : List (Option Char) :=
  s.toList.map (fun c => if c = '.' then none else some c)

/-- The `SHORT_URL_PATTERNS` of src/utils/url_parser.py lines 45-49
(each regex is a dotted literal followed by one or more [a-zA-Z0-9]). -/
def short_url_pats : List (List (Option Char)) :=
  [wildPat ("t.co/"), wildPat ("qbz.fm/"), wildPat ("deezer.page.link/")]

/-- Match a wildcard literal against the head of a list, returning the
remainder on success. -/
def matchWild : List (Option Char) → List Char → Option (List Char)
  | [], s => some s
  | _ :: _, [] => none
  | p :: ps, c :: cs =>
      match p with
      | some pc => if pc = c then matchWild ps cs else none
      | none => matchWild ps cs

/-- re.search of a dotted literal followed by one or more alphanumerics:
try every start position. -/
def searchWildAlnum (pat : List (Option Char)) : List Char → Bool
  | [] => false
  | c :: cs =>
      (match matchWild pat (c :: cs) with
       | some rest => !(rest.takeWhile Char.isAlphanum).isEmpty
       | none => false) || searchWildAlnum pat cs

/-- Model of `URLParser._is_short_url`. -/
def is_short_url (url : List Char) : Bool :=
  short_url_pats.any (fun p => searchWildAlnum p url)

/-- re.search of a pattern of the shape `key(cls+)` (all the URL_PATTERNS
regexes have this shape: a literal key like '/track/' followed by a
character class with +): scan left to right, capture greedily the
nonempty class run right after the key. -/
def findKeyCapture (key : List Char) (cls : Char → Bool) : List Char → Option (List Char)
  | [] => none
  | c :: cs =>
      if startsWithL key (c :: cs) then
        let cap := ((c :: cs).drop key.length).takeWhile cls
        if cap.isEmpty then findKeyCapture key cls cs else some cap
      else findKeyCapture key cls cs

/-- Character class \d. -/
def digitC (c : Char) : Bool := c.isDigit

/-- Character class [a-zA-Z0-9-] of the tidal playlist pattern. -/
def alnumDash (c : Char) : Bool := c.isAlphanum || c = '-'

/-- The tidal entry of `URL_PATTERNS.patterns`, in dict insertion order
(track, album, playlist, artist). -/
def tidal_patterns : List (String × String × (Char → Bool)) :=
  [("track", "/track/", digitC), ("album", "/album/", digitC),
   ("playlist", "/playlist/", alnumDash), ("artist", "/artist/", digitC)]

/-- The qobuz and deezer pattern entries (identical shape, playlist id
is numeric). -/
def std_patterns : List (String × String × (Char → Bool)) :=
  [("track", "/track/", digitC), ("album", "/album/", digitC),
   ("playlist", "/playlist/", digitC), ("artist", "/artist/", digitC)]

/-- The `URL_PATTERNS` table of src/utils/url_parser.py lines 14-42:
service name, registered domains, path patterns. -/
def URL_PATTERNS : List (String × List String × List (String × String × (Char → Bool))) :=
  [("tidal", (["tidal.com", "listen.tidal.com"], tidal_patterns)),
   ("qobuz", (["qobuz.com", "play.qobuz.com", "open.qobuz.com"], std_patterns)),
   ("deezer", (["deezer.com", "deezer.page.link"], std_patterns))]

/-- Model of `URLParser._identify_service` (src/utils/url_parser.py lines
121-127): lowercase the domain and return the first service one of whose
registered domains occurs as a SUBSTRING of it (`if any(d in domain ...)`). -/
def identify_service (domain : List Char) : Option String :=
  let d := domain.map Char.toLower
  URL_PATTERNS.findSome? (fun x =>
    if x.2.1.any (fun dom => containsSub dom.toList d) then some x.1 else none)

/-- The pattern list registered for a service. -/
def patterns_of (svc : String) : List (String × String × (Char → Bool)) :=
  (URL_PATTERNS.findSome? (fun x => if x.1 = svc then some x.2.2 else none)).getD []

/-- Model of `URLParser._extract_media_info`: try the service's patterns
in order and return the first (media type, captured id). -/
def extract_media_info (pats : List (String × String × (Char → Bool)))
    (path : List Char) : Option (String × List Char) :=
  pats.findSome? (fun x => (findKeyCapture x.2.1.toList x.2.2 path).map (fun cap => (x.1, cap)))

/-- Model of `URLParser.parse_url` (src/utils/url_parser.py lines 51-99).
`expand` is the network oracle used by `_expand_short_url` (None models
its soft-fail, which keeps the URL unchanged).  Every failure is a raised
`URLParsingError` carrying the shown message; the function is total. -/
def parse_url (expand : String → Option String) (url : String) :
    Except String (String × String × String) :=
  match clean_url url with
  | none => Except.error ("Invalid URL format")
  | some cu0 =>
      let cu := if is_short_url cu0 then
                  (match expand (String.mk cu0) with
                   | some e => e.toList
                   | none => cu0)
                else cu0
      let np := splitUrl cu
      match identify_service np.1 with
      | none => Except.error (("Unsupported service domain: ") ++ String.mk np.1)
      | some svc =>
          match extract_media_info (patterns_of svc) np.2 with
          | none =>
              Except.error (("Could not extract media information from path: ") ++ String.mk np.2)
          | some mi => Except.ok (svc, mi.1, String.mk mi.2)

/-- Modelled from the spec: 'Identifies service by suffix-matching the
host against each service's registered domain list' — true when some
registered domain is a suffix of the (lowercased) host.  Stated only to
compare the spec's matching rule with the code's substring rule. -/
def suffix_matches_known_service (host : List Char) : Bool :=
  URL_PATTERNS.any (fun x =>
    x.2.1.any (fun dom => endsWithL dom.toList (host.map Char.toLower)))

end UP

theorem RL.prune_eq_of_requests_eq (rl rl2 : RL.RateLimiter) (v : Int) (now : Rat)
    (h : rl2.requests v = rl.requests v) (hw : rl2.time_window = rl.time_window) :
    RL.prune rl2 v now = RL.prune rl v now := by
  simp [RL.prune, h, hw]

theorem RL.fst_can_proceed_congr (rl rl2 : RL.RateLimiter) (v : Int) (now : Rat)
    (h : rl2.requests v = rl.requests v)
    (hm : rl2.max_requests = rl.max_requests)
    (hw : rl2.time_window = rl.time_window) :
    (RL.can_proceed rl2 v now).1 = (RL.can_proceed rl v now).1 := by
  have hp : RL.prune rl2 v now = RL.prune rl v now :=
    RL.prune_eq_of_requests_eq rl rl2 v now h hw
  simp only [RL.can_proceed, hp, hm, hw]
  by_cases hc : rl.max_requests ≤ (RL.prune rl v now).length <;> simp [hc]

/-- C9: when a user already has at least `max_requests` requests recorded
inside the sliding window (so this call is the (maxRequests+1)-th request
in the window), `RateLimiter.can_proceed` returns allowed = false with a
strictly positive retry-after time; the other users' recorded histories
are untouched, and a simultaneous request by a different user yields the
same (allowed, retryAfter) outcome as it would have before this call, so
it is unaffected by the first user's history. -/
theorem RL.can_proceed_denies_when_window_full (rl : RL.RateLimiter) (u : Int) (now : Rat)
    (hmax : 1 ≤ rl.max_requests)
    (hfull : rl.max_requests ≤ (RL.prune rl u now).length) :
    (RL.can_proceed rl u now).1.1 = false ∧
    0 < (RL.can_proceed rl u now).1.2 ∧
    (∀ v : Int, v ≠ u → (RL.can_proceed rl u now).2.requests v = rl.requests v) ∧
    (∀ (v : Int) (now2 : Rat), v ≠ u →
      (RL.can_proceed ((RL.can_proceed rl u now).2) v now2).1 =
        (RL.can_proceed rl v now2).1) := by
  have hne : RL.prune rl u now ≠ [] := by
    intro h0
    rw [h0] at hfull
    simp only [List.length_nil, Nat.le_zero] at hfull
    omega
  have hmem : (RL.prune rl u now).headD 0 ∈ RL.prune rl u now := by
    cases hp : RL.prune rl u now with
    | nil => exact absurd hp hne
    | cons a l => simp
  have hlt : now - (RL.prune rl u now).headD 0 < rl.time_window := by
    have h2 := List.of_mem_filter hmem
    simpa using h2
  have hframe : ∀ v : Int, v ≠ u →
      (RL.can_proceed rl u now).2.requests v = rl.requests v := by
    intro v hv
    simp [RL.can_proceed, hfull, hv]
  refine ⟨by simp [RL.can_proceed, hfull], ?_, hframe, ?_⟩
  · simp only [RL.can_proceed, hfull, if_true, if_pos hfull]
    linarith
  · intro v now2 hv
    apply RL.fst_can_proceed_congr
    · exact hframe v hv
    · simp [RL.can_proceed, hfull]
    · simp [RL.can_proceed, hfull]

theorem RL.rlW_prune_eq : RL.prune RL.rlW 5 1 = [0] := by
  norm_num [RL.prune, RL.rlW]

theorem RL.rlW_full : RL.rlW.max_requests ≤ (RL.prune RL.rlW 5 1).length := by
  rw [RL.rlW_prune_eq]
  simp [RL.rlW]

theorem RL.rlW_denied : (RL.can_proceed RL.rlW 5 1).1.1 = false := by
  simp [RL.can_proceed, RL.rlW_full]

/-- C9 witness: with a limiter allowing 1 request per 60-second window and
user 5 having a recorded request at time 0, a call at time 1 is denied
with positive retry-after, and user 7 is unaffected. -/
theorem RL.can_proceed_denies_when_window_full_witness :
    (RL.can_proceed RL.rlW 5 1).1.1 = false ∧
    0 < (RL.can_proceed RL.rlW 5 1).1.2 ∧
    (RL.can_proceed RL.rlW 5 1).2.requests 7 = RL.rlW.requests 7 ∧
    (RL.can_proceed ((RL.can_proceed RL.rlW 5 1).2) 7 1).1 =
      (RL.can_proceed RL.rlW 7 1).1 := by
  have h := RL.can_proceed_denies_when_window_full RL.rlW 5 1 (by simp [RL.rlW])
    RL.rlW_full
  exact ⟨h.1, h.2.1, h.2.2.1 7 (by decide), h.2.2.2 7 1 (by decide)⟩

/-- C10: a denied `can_proceed` call changes the calling user's recorded
list only by pruning entries that fell out of the window (the result is
the pruned list, a sublist of the original — no timestamp is appended),
an allowed call records exactly one new timestamp, and other users'
lists are unchanged in either case. -/
theorem RL.can_proceed_denied_only_prunes (rl : RL.RateLimiter) (u : Int) (now : Rat) :
    ((RL.can_proceed rl u now).1.1 = false →
       (RL.can_proceed rl u now).2.requests u = RL.prune rl u now ∧
       ((RL.can_proceed rl u now).2.requests u).Sublist (rl.requests u)) ∧
    ((RL.can_proceed rl u now).1.1 = true →
       (RL.can_proceed rl u now).2.requests u = RL.prune rl u now ++ [now]) ∧
    (∀ v : Int, v ≠ u → (RL.can_proceed rl u now).2.requests v = rl.requests v) := by
  by_cases hc : rl.max_requests ≤ (RL.prune rl u now).length
  · refine ⟨fun _ => ⟨by simp [RL.can_proceed, hc], ?_⟩, fun habs => ?_, fun v hv => ?_⟩
    · have : (RL.can_proceed rl u now).2.requests u = RL.prune rl u now := by
        simp [RL.can_proceed, hc]
      rw [this]
      exact List.filter_sublist _
    · simp [RL.can_proceed, hc] at habs
    · simp [RL.can_proceed, hc, hv]
  · refine ⟨fun habs => ?_, fun _ => by simp [RL.can_proceed, hc], fun v hv => ?_⟩
    · simp [RL.can_proceed, hc] at habs
    · simp [RL.can_proceed, hc, hv]

/-- C10 witness: at the concrete denied call (user 5 at time 1 against
`rlW`), the stored list for user 5 equals the pruned list and is a
sublist of the original; user 7 is untouched. -/
theorem RL.can_proceed_denied_only_prunes_witness :
    (RL.can_proceed RL.rlW 5 1).2.requests 5 = RL.prune RL.rlW 5 1 ∧
    ((RL.can_proceed RL.rlW 5 1).2.requests 5).Sublist (RL.rlW.requests 5) ∧
    (RL.can_proceed RL.rlW 5 1).2.requests 7 = RL.rlW.requests 7 := by
  have h := RL.can_proceed_denied_only_prunes RL.rlW 5 1
  have hden : (RL.can_proceed RL.rlW 5 1).1.1 = false := RL.rlW_denied
  exact ⟨(h.1 hden).1, (h.1 hden).2, h.2.2 7 (by decide)⟩

/-- C1 (code bug): every call to `QueueManager.add_to_queue` appends the
job and then raises TypeError — `await self.queue.append(coro)` awaits
the None returned by `deque.append` — before `process_queue` is ever
reached.  Hence at the concrete failing input (the first enqueue on a
fresh queue) the job stays Pending with no slot taken, and in every
state the actual program can reach, the set of Downloading jobs is
empty: the claimed cap-and-release admission mechanism that
`process_queue`/`task_done` clearly intend to implement is never
exercised. -/
theorem QMgr.enqueue_raises_before_admission :
    (QMgr.add_to_queue ⟨[], []⟩ 1).2 =
      Except.error ("TypeError: object NoneType can not be used in await expression") ∧
    (QMgr.add_to_queue ⟨[], []⟩ 1).1 = ⟨[1], []⟩ ∧
    (∀ s : QMgr.QueueManager, QMgr.Reachable s → s.active_tasks = []) := by
  refine ⟨rfl, rfl, fun s h => ?_⟩
  induction h with
  | init => rfl
  | enqueue s j _ ih => simpa [QMgr.add_to_queue] using ih

/-- C1 witness: the first enqueue on a fresh queue raises the TypeError
and its (reachable) post-state has no active download. -/
theorem QMgr.enqueue_raises_before_admission_witness :
    (QMgr.add_to_queue ⟨[], []⟩ 1).2 =
      Except.error ("TypeError: object NoneType can not be used in await expression") ∧
    ((QMgr.add_to_queue ⟨[], []⟩ 1).1).active_tasks = [] := by
  have h := QMgr.enqueue_raises_before_admission
  exact ⟨h.1, h.2.2 _ (QMgr.Reachable.enqueue ⟨[], []⟩ 1 QMgr.Reachable.init)⟩

theorem CMgr.process_queue_count (p : CMgr.QueueItem → Bool) :
    ∀ (q : List CMgr.QueueItem) (a : List (Int × CMgr.QueueItem)) (t : List CMgr.QueueItem),
      (CMgr.process_queue q a t).queue.countP p +
          (CMgr.process_queue q a t).created_tasks.countP p =
        q.countP p + t.countP p := by
  intro q
  induction q with
  | nil => intro a t; simp [CMgr.process_queue]
  | cons it rest ih =>
      intro a t
      by_cases hlt : a.length < CMgr.max_concurrent
      · simp only [CMgr.process_queue, if_pos hlt]
        rw [ih]
        simp [List.countP_cons, List.countP_append]
        omega
      · simp [CMgr.process_queue, hlt]

/-- C2 counterexample: enqueuing the same (user, mediaUrl, quality,
format) tuple twice while the first job is still 'pending' does NOT
return the existing job: the second call returns a distinct fresh item,
both are non-terminal, and two live jobs for the tuple coexist (two
worker tasks are spawned). -/
theorem CMgr.duplicate_enqueue_not_suppressed_counterexample :
    CMgr.cr1.1 ≠ CMgr.cr2.1 ∧
    CMgr.cr1.1.status = "pending" ∧ CMgr.cr2.1.status = "pending" ∧
    CMgr.tuple_jobs CMgr.cr2.2 1 ("http://x") ("LOSSLESS") ("flac") = 2 ∧
    CMgr.cr2.2.created_tasks.length = 2 := by decide

/-- C2 amended: `add_to_queue` performs no duplicate suppression — every
call creates and schedules a fresh QueueItem with status 'pending' and
the current timestamp, and the number of live jobs (queued or held by a
spawned worker task) for its tuple grows by exactly one even when an
identical non-terminal job already exists. -/
theorem CMgr.add_to_queue_always_creates_fresh_job (s : CMgr.QueueManager) (u : Int)
    (url q f : String) (now : Nat) :
    (CMgr.add_to_queue s u url q f now).1 = ⟨u, url, q, f, now, "pending"⟩ ∧
    CMgr.tuple_jobs (CMgr.add_to_queue s u url q f now).2 u url q f =
      CMgr.tuple_jobs s u url q f + 1 := by
  constructor
  · rfl
  · show CMgr.tuple_jobs
      (CMgr.process_queue (s.queue ++ [⟨u, url, q, f, now, "pending"⟩])
        s.active_downloads s.created_tasks) u url q f = _
    unfold CMgr.tuple_jobs
    rw [List.countP_append, CMgr.process_queue_count, List.countP_append,
      List.countP_append]
    simp
    omega

theorem DM.downloadLoop_no_cancel (cancel : Nat → Bool) (total : Nat) (out : String) :
    ∀ (chunks : List Nat) (idx downloaded : Nat), (∀ i, cancel i = false) →
      DM.downloadLoop cancel total out chunks idx downloaded =
        (Except.ok out, downloaded + chunks.sum, DM.cumFrom downloaded chunks,
          (DM.cumFrom downloaded chunks).map (fun b => (b, total))) := by
  intro chunks
  induction chunks with
  | nil => intro idx downloaded _; simp [DM.downloadLoop, DM.cumFrom]
  | cons c rest ih =>
      intro idx downloaded hnc
      rw [DM.downloadLoop, hnc idx]
      simp only [Bool.false_eq_true, if_false,
        ih (idx + 1) (downloaded + c) hnc, DM.cumFrom, List.sum_cons, List.map_cons]
      rw [Nat.add_assoc]

theorem DM.downloadLoop_cancelled (cancel : Nat → Bool) (total : Nat) (out : String) :
    ∀ (chunks : List Nat) (idx downloaded k : Nat), k < chunks.length →
      cancel (idx + k) = true → (∀ j, j < k → cancel (idx + j) = false) →
      (DM.downloadLoop cancel total out chunks idx downloaded).1 =
          Except.error ("Download cancelled") ∧
      (DM.downloadLoop cancel total out chunks idx downloaded).2.1 =
          downloaded + (chunks.take k).sum := by
  intro chunks
  induction chunks with
  | nil => intro idx downloaded k hk; simp at hk
  | cons c rest ih =>
      intro idx downloaded k hk hc hprev
      by_cases h0 : k = 0
      · subst h0
        simp only [Nat.add_zero] at hc
        simp [DM.downloadLoop, hc]
      · have hcidx : cancel idx = false := by
          have := hprev 0 (by omega)
          simpa using this
        obtain ⟨k', rfl⟩ : ∃ k', k = k' + 1 := ⟨k - 1, by omega⟩
        have hrec := ih (idx + 1) (downloaded + c) k'
          (by simpa using Nat.lt_of_succ_lt_succ hk)
          (by rw [show idx + 1 + k' = idx + (k' + 1) by omega]; exact hc)
          (fun j hj => by
            rw [show idx + 1 + j = idx + (j + 1) by omega]
            exact hprev (j + 1) (by omega))
        rw [DM.downloadLoop, hcidx]
        simp only [Bool.false_eq_true, if_false]
        refine ⟨hrec.1, ?_⟩
        rw [hrec.2]
        simp [List.take, List.sum_cons]
        omega

theorem DM.download_file_success (req : DM.DownloadRequest) (resp : DM.HttpResponse)
    (cancel : Nat → Bool) (hst : resp.status = 200) (hnc : ∀ i, cancel i = false) :
    DM.download_file req resp cancel =
      ⟨Except.ok req.output_path, true, resp.chunks.sum, 0 :: DM.cumFrom 0 resp.chunks,
        (DM.cumFrom 0 resp.chunks).map (fun b => (b, resp.content_length.getD 0))⟩ := by
  have hloop := DM.downloadLoop_no_cancel cancel (resp.content_length.getD 0)
    req.output_path resp.chunks 0 0 hnc
  simp [DM.download_file, hst, hloop]

theorem DM.downloadLoop_reports_chain (cancel : Nat → Bool) (total : Nat) (out : String) :
    ∀ (chunks : List Nat) (idx downloaded : Nat),
      List.Chain' (fun a b : Nat × Nat => a.1 ≤ b.1)
        ((downloaded, total) :: (DM.downloadLoop cancel total out chunks idx downloaded).2.2.2) := by
  intro chunks
  induction chunks with
  | nil => intro idx d; simp [DM.downloadLoop]
  | cons c rest ih =>
      intro idx d
      by_cases hc : cancel idx
      · simp [DM.downloadLoop, hc]
      · have h := ih (idx + 1) (d + c)
        simp only [DM.downloadLoop, hc, Bool.false_eq_true, if_false]
        exact List.chain'_cons.mpr ⟨Nat.le_add_right d c, h⟩

theorem DM.getLast_cons_ne {α : Type} (a : α) (l : List α) (h : l ≠ []) :
    (a :: l).getLast? = l.getLast? := by
  cases l with
  | nil => exact absurd rfl h
  | cons b t => simp [List.getLast?_cons_cons]

theorem DM.cumFrom_ne_nil (acc c : Nat) (t : List Nat) :
    DM.cumFrom acc (c :: t) ≠ [] := by
  simp [DM.cumFrom]

theorem DM.cumFrom_getLast :
    ∀ (chunks : List Nat) (acc : Nat), chunks ≠ [] →
      (DM.cumFrom acc chunks).getLast? = some (acc + chunks.sum) := by
  intro chunks
  induction chunks with
  | nil => intro acc h; exact absurd rfl h
  | cons c rest ih =>
      intro acc _
      cases rest with
      | nil => simp [DM.cumFrom]
      | cons c2 r2 =>
          rw [DM.cumFrom, DM.getLast_cons_ne _ _ (DM.cumFrom_ne_nil (acc + c) c2 r2),
            ih (acc + c) (by simp)]
          simp only [List.sum_cons]
          rw [Nat.add_assoc]

/-- C3 counterexample: the first HTTP attempt answers 503 (a transient
5xx failure) and any retry would succeed, yet `download` surfaces the
failure immediately as a raised exception — no retry, no backoff, no
NetworkFailure classification. -/
theorem DM.transient_failure_not_retried_counterexample :
    (DM.download_via DM.srv503 DM.reqW DM.noCancel).result =
      Except.error ("Download failed with status 503") ∧
    (DM.download_file DM.reqW (DM.srv503 1) DM.noCancel).result =
      Except.ok ("/downloads/out.flac") := by
  exact ⟨rfl, rfl⟩

/-- C3 amended: the worker performs exactly one HTTP request per download
(only the first server response is ever consulted) and any non-200
response — 4xx and 5xx alike — raises 'Download failed with status N'
immediately, with no retry, no exponential backoff, and no distinction
between transient and permanent failures. -/
theorem DM.download_single_attempt_no_retry (server : Nat → DM.HttpResponse)
    (req : DM.DownloadRequest) (cancel : Nat → Bool) :
    DM.download_via server req cancel = DM.download_file req (server 0) cancel ∧
    ((server 0).status ≠ 200 →
      (DM.download_via server req cancel).result =
        Except.error (("Download failed with status ") ++ toString (server 0).status)) := by
  refine ⟨rfl, fun h => ?_⟩
  simp [DM.download_via, DM.download_file, h]

/-- C3 amended witness: concrete 503 first response. -/
theorem DM.download_single_attempt_no_retry_witness :
    DM.download_via DM.srv503 DM.reqW DM.noCancel =
      DM.download_file DM.reqW (DM.srv503 0) DM.noCancel ∧
    (DM.download_via DM.srv503 DM.reqW DM.noCancel).result =
      Except.error (("Download failed with status ") ++ toString (DM.srv503 0).status) := by
  have h := DM.download_single_attempt_no_retry DM.srv503 DM.reqW DM.noCancel
  exact ⟨h.1, h.2 (by decide)⟩

/-- C5 counterexample: the cancel flag set from the second chunk boundary
on is observed between chunk reads and the transfer aborts, but the
1000-byte partial file is left in place at the output path (nothing is
deleted) and the outcome is a generic raised exception, not a Cancelled
state transition. -/
theorem DM.cancelled_download_keeps_partial_file_counterexample :
    (DM.download_file DM.reqW DM.respW DM.cancelAt1).result =
      Except.error ("Download cancelled") ∧
    (DM.download_file DM.reqW DM.respW DM.cancelAt1).file_exists = true ∧
    (DM.download_file DM.reqW DM.respW DM.cancelAt1).bytes_written = 1000 := by
  exact ⟨rfl, rfl, rfl⟩

/-- C5 amended: when the cancel flag is first observed at chunk boundary
`k` (before all chunks are consumed), the worker raises 'Download
cancelled' — it does not complete — but it leaves the partial file with
the bytes of the first `k` chunks in place at the output path; no
deletion and no explicit Cancelled transition occur. -/
theorem DM.cancel_observed_leaves_partial_file (req : DM.DownloadRequest)
    (resp : DM.HttpResponse) (cancel : Nat → Bool) (k : Nat)
    (hst : resp.status = 200) (hk : k < resp.chunks.length)
    (hc : cancel k = true) (hprev : ∀ j, j < k → cancel j = false) :
    (DM.download_file req resp cancel).result = Except.error ("Download cancelled") ∧
    (DM.download_file req resp cancel).bytes_written = (resp.chunks.take k).sum ∧
    (DM.download_file req resp cancel).file_exists = true := by
  have h := DM.downloadLoop_cancelled cancel (resp.content_length.getD 0)
    req.output_path resp.chunks 0 0 k hk (by simpa using hc)
    (fun j hj => by simpa using hprev j hj)
  refine ⟨?_, ?_, ?_⟩ <;> simp [DM.download_file, hst, h.1, h.2]

/-- C5 amended witness: cancel observed at the second chunk boundary of
the concrete run leaves exactly the first chunk's bytes behind. -/
theorem DM.cancel_observed_leaves_partial_file_witness :
    (DM.download_file DM.reqW DM.respW DM.cancelAt1).result =
      Except.error ("Download cancelled") ∧
    (DM.download_file DM.reqW DM.respW DM.cancelAt1).bytes_written =
      (DM.respW.chunks.take 1).sum ∧
    (DM.download_file DM.reqW DM.respW DM.cancelAt1).file_exists = true := by
  have h := DM.cancel_observed_leaves_partial_file DM.reqW DM.respW DM.cancelAt1 1
    rfl (by decide) (by decide)
    (fun j hj => by
      have hj0 : j = 0 := by omega
      subst hj0
      decide)
  exact ⟨h.1, h.2.1, h.2.2⟩

/-- C6 counterexample: during a successful two-chunk download the final
path (the very path the call returns) observably holds 1000 bytes — a
partially-written, untagged file — strictly between empty and the full
2000 bytes; no temporary path or rename is involved. -/
theorem DM.partial_file_visible_at_final_path_counterexample :
    (DM.download_file DM.reqW DM.respW DM.noCancel).result =
      Except.ok ("/downloads/out.flac") ∧
    (DM.download_file DM.reqW DM.respW DM.noCancel).snapshots = [0, 1000, 2000] ∧
    1000 ∈ (DM.download_file DM.reqW DM.respW DM.noCancel).snapshots ∧
    (0 : Nat) < 1000 ∧ (1000 : Nat) < 2000 := by
  exact ⟨rfl, rfl, by decide, by decide, by decide⟩

theorem DM.getLast_map {α β : Type} (f : α → β) :
    ∀ (l : List α), (l.map f).getLast? = (l.getLast?).map f := by
  intro l
  induction l with
  | nil => simp
  | cons a t ih =>
      cases t with
      | nil => simp
      | cons b r =>
          simp only [List.map_cons, List.getLast?_cons_cons] at ih ⊢
          exact ih

/-- C6 amended: the output file is written directly at the final
`output_path`, growing chunk by chunk (every intermediate cumulative
byte count is observable there), and `download_track` then tags it in
place at the same final path; no temporary path and no rename exist
anywhere on the path to completion. -/
theorem DM.writes_in_place_at_final_path (req : DM.DownloadRequest)
    (resp : DM.HttpResponse) (cancel : Nat → Bool)
    (hst : resp.status = 200) (hnc : ∀ i, cancel i = false) :
    (DM.download_file req resp cancel).result = Except.ok req.output_path ∧
    (DM.download_file req resp cancel).snapshots = 0 :: DM.cumFrom 0 resp.chunks ∧
    MD.FsEvent.write req.output_path ∈ MD.download_track_events req.output_path ∧
    MD.FsEvent.tag req.output_path ∈ MD.download_track_events req.output_path ∧
    (∀ src dst : String,
      MD.FsEvent.rename src dst ∉ MD.download_track_events req.output_path) := by
  have h := DM.download_file_success req resp cancel hst hnc
  rw [h]
  refine ⟨rfl, rfl, by simp [MD.download_track_events],
    by simp [MD.download_track_events], ?_⟩
  intro src dst
  simp [MD.download_track_events]

/-- C6 amended witness: the concrete successful run. -/
theorem DM.writes_in_place_at_final_path_witness :
    (DM.download_file DM.reqW DM.respW DM.noCancel).result =
      Except.ok (DM.reqW.output_path) ∧
    (DM.download_file DM.reqW DM.respW DM.noCancel).snapshots =
      0 :: DM.cumFrom 0 DM.respW.chunks ∧
    MD.FsEvent.write DM.reqW.output_path ∈ MD.download_track_events DM.reqW.output_path ∧
    MD.FsEvent.tag DM.reqW.output_path ∈ MD.download_track_events DM.reqW.output_path ∧
    MD.FsEvent.rename ("/tmp/a") ("/downloads/out.flac") ∉
      MD.download_track_events DM.reqW.output_path := by
  have h := DM.writes_in_place_at_final_path DM.reqW DM.respW DM.noCancel rfl (fun i => rfl)
  exact ⟨h.1, h.2.1, h.2.2.1, h.2.2.2.1, h.2.2.2.2 ("/tmp/a") ("/downloads/out.flac")⟩

/-- C7: the (downloaded, total) pairs passed to the progress callback
within one job are monotonically non-decreasing in the downloaded
component, whatever the response and cancellation behaviour; and on a
successful uncancelled transfer whose content-length header matches the
delivered body, the final reported value equals that total. -/
theorem DM.progress_monotone_and_final_total (req : DM.DownloadRequest)
    (resp : DM.HttpResponse) (cancel : Nat → Bool) (t : Nat) :
    List.Chain' (fun a b : Nat × Nat => a.1 ≤ b.1)
      (DM.download_file req resp cancel).reports ∧
    (resp.status = 200 → (∀ i, cancel i = false) → resp.content_length = some t →
      resp.chunks.sum = t → resp.chunks ≠ [] →
      (DM.download_file req resp cancel).reports.getLast? = some (t, t)) := by
  constructor
  · by_cases hst : resp.status = 200
    · have hrep : (DM.download_file req resp cancel).reports =
          (DM.downloadLoop cancel (resp.content_length.getD 0) req.output_path
            resp.chunks 0 0).2.2.2 := by
        simp [DM.download_file, hst]
      rw [hrep]
      exact (DM.downloadLoop_reports_chain cancel _ req.output_path resp.chunks 0 0).tail
    · have hrep : (DM.download_file req resp cancel).reports = [] := by
        simp [DM.download_file, hst]
      rw [hrep]
      exact List.chain'_nil
  · intro hst hnc hcl hsum hne
    have h := DM.download_file_success req resp cancel hst hnc
    rw [h]
    show ((DM.cumFrom 0 resp.chunks).map
      (fun b => (b, resp.content_length.getD 0))).getLast? = _
    rw [DM.getLast_map, DM.cumFrom_getLast resp.chunks 0 hne]
    simp [hcl, hsum]

/-- C7 witness: the concrete successful run reports [(1000, 2000),
(2000, 2000)], a non-decreasing sequence ending at the total. -/
theorem DM.progress_monotone_and_final_total_witness :
    List.Chain' (fun a b : Nat × Nat => a.1 ≤ b.1)
      (DM.download_file DM.reqW DM.respW DM.noCancel).reports ∧
    (DM.download_file DM.reqW DM.respW DM.noCancel).reports.getLast? =
      some (2000, 2000) := by
  have h := DM.progress_monotone_and_final_total DM.reqW DM.respW DM.noCancel 2000
  exact ⟨h.1, h.2 rfl (fun i => rfl) rfl rfl (by decide)⟩

/-- C4 counterexample: HI_RES is unavailable for the track (the endpoint
answers 404) while the next-lower tier LOSSLESS is available, yet
`get_download_url` queries only HI_RES — it never attempts the fallback —
and raises `QualityNotAvailableError` with a fixed message that names
neither the requested tier nor the available tiers
(available_qualities = None). -/
theorem MD.quality_fallback_absent_counterexample :
    (MD.get_download_url MD.srvQ ("42") ("HI_RES")).1 =
      Except.error ⟨("Failed to get download URL for the specified quality"), none⟩ ∧
    (MD.get_download_url MD.srvQ ("42") ("HI_RES")).2 = [("HI_RES" : String)] ∧
    MD.srvQ ("42") ("LOSSLESS") = (200, ("http://cdn/lossless")) := by
  exact ⟨rfl, rfl, rfl⟩

/-- C4 amended: `get_download_url` performs a single request at the
native code of the requested tier (an unknown tier falls back to the
request default HIGH); a non-200 answer raises
`QualityNotAvailableError` immediately with the fixed message
'Failed to get download URL for the specified quality' and no
available-qualities information — no lower tier is ever attempted. -/
theorem MD.get_download_url_single_attempt (server : String → String → Nat × String)
    (track_id quality : String) :
    (MD.get_download_url server track_id quality).2 =
      [(MD.quality_map.lookup quality).getD ("HIGH")] ∧
    ((server track_id ((MD.quality_map.lookup quality).getD ("HIGH"))).1 = 200 →
      (MD.get_download_url server track_id quality).1 =
        Except.ok (server track_id ((MD.quality_map.lookup quality).getD ("HIGH"))).2) ∧
    ((server track_id ((MD.quality_map.lookup quality).getD ("HIGH"))).1 ≠ 200 →
      (MD.get_download_url server track_id quality).1 =
        Except.error ⟨("Failed to get download URL for the specified quality"), none⟩) := by
  refine ⟨rfl, fun h => ?_, fun h => ?_⟩ <;> simp [MD.get_download_url, h]

/-- C4 amended witness: the concrete 404 answer for HI_RES. -/
theorem MD.get_download_url_single_attempt_witness :
    (MD.get_download_url MD.srvQ ("42") ("HI_RES")).2 = [("HI_RES" : String)] ∧
    (MD.get_download_url MD.srvQ ("42") ("HI_RES")).1 =
      Except.error ⟨("Failed to get download URL for the specified quality"), none⟩ := by
  have h := MD.get_download_url_single_attempt MD.srvQ ("42") ("HI_RES")
  exact ⟨h.1.trans (by decide), h.2.2 (by decide)⟩

/-- C8 counterexample: the host tidal.com.evil.org suffix-matches no
registered domain of any service, yet `parse_url` resolves it as a tidal
track because `_identify_service` uses substring containment
(`d in domain`), not suffix matching — contradicting both the stated
matching rule and the guarantee that such hosts fail with
UnsupportedService. -/
theorem UP.substring_match_not_suffix_counterexample :
    UP.parse_url (fun _ => none) ("https://tidal.com.evil.org/track/123") =
      Except.ok ("tidal", "track", "123") ∧
    UP.suffix_matches_known_service (("tidal.com.evil.org").toList) = false := by
  exact ⟨by decide, by decide⟩

/-- C8 amended: the documented example resolves as specified; service
identification is by SUBSTRING containment of a registered domain in the
lowercased host, so (for non-short-link inputs, which skip the network
expansion hop) a cleaned URL whose host contains no registered domain
fails with the 'Unsupported service domain' URLParsingError, and a
matching host whose path matches no media pattern fails with the 'Could
not extract media information' URLParsingError; `parse_url` is a total
function — every failure is one of these raised errors, never a crash. -/
theorem UP.parse_url_error_routing (expand : String → Option String) (url : String) :
    UP.parse_url (fun _ => none) ("https://tidal.com/browse/track/12345678") =
      Except.ok ("tidal", "track", "12345678") ∧
    (∀ cu : List Char, UP.clean_url url = some cu → UP.is_short_url cu = false →
      UP.identify_service (UP.splitUrl cu).1 = none →
      UP.parse_url expand url =
        Except.error (("Unsupported service domain: ") ++ String.mk (UP.splitUrl cu).1)) ∧
    (∀ (cu : List Char) (svc : String), UP.clean_url url = some cu →
      UP.is_short_url cu = false →
      UP.identify_service (UP.splitUrl cu).1 = some svc →
      UP.extract_media_info (UP.patterns_of svc) (UP.splitUrl cu).2 = none →
      UP.parse_url expand url =
        Except.error (("Could not extract media information from path: ") ++
          String.mk (UP.splitUrl cu).2)) := by
  refine ⟨by decide, fun cu hcu hshort hid => ?_, fun cu svc hcu hshort hid hext => ?_⟩
  · simp [UP.parse_url, hcu, hshort, hid]
  · simp [UP.parse_url, hcu, hshort, hid, hext]

/-- C8 amended witness: the spec's own examples — the tidal track URL
resolves; invalid-url.com is unsupported; a matching host with an
unrecognized path is an invalid-media error. -/
theorem UP.parse_url_error_routing_witness :
    UP.parse_url (fun _ => none) ("https://tidal.com/browse/track/12345678") =
      Except.ok ("tidal", "track", "12345678") ∧
    UP.parse_url (fun _ => none) ("https://invalid-url.com/track/1") =
      Except.error ("Unsupported service domain: invalid-url.com") ∧
    UP.parse_url (fun _ => none) ("https://tidal.com/browse") =
      Except.error ("Could not extract media information from path: /browse") := by
  have h1 := UP.parse_url_error_routing (fun _ => none) ("https://invalid-url.com/track/1")
  have h2 := UP.parse_url_error_routing (fun _ => none) ("https://tidal.com/browse")
  refine ⟨h1.1, ?_, ?_⟩
  · have h := h1.2.1 (("https://invalid-url.com/track/1").toList)
      (by decide) (by decide) (by decide)
    exact h.trans (by decide)
  · have h := h2.2.2 (("https://tidal.com/browse").toList) ("tidal")
      (by decide) (by decide) (by decide) (by decide)
    exact h.trans (by decide)
